import Mathlib

/-!
Verification of the raw-REPL serial driver in `micropython/read_i2c.py`
(`ESPI2C`) and `micropython/espgui.py` (`ESP32Controller`), against its
natural-language specification.

The embedding works at the byte level: a byte is a `Nat` (< 256 for real
traffic), a byte string is a `List Nat`.  Pure parsing code is translated
to Lean functions; the serial side effects of each method are modelled as
an explicit event trace (`Ev`), and the blocking read loop as a fuel-indexed
iteration (`readLoop`) where fuel bounds the number of observed poll
iterations, not the loop itself — the Python loop is `while True`.
-/

set_option autoImplicit false

namespace Softarm

/-- Model of Python `bytes.split(sep)` for a one-byte separator: split on every
occurrence of `sep`, keeping empty segments; always returns at least one
segment. -/
def splitOnByte (sep : Nat) : List Nat → List (List Nat)
  | [] => [[]]
  | b :: t =>
    let r := splitOnByte sep t
    if b = sep then [] :: r
    else
      match r with
      | s :: rest => (b :: s) :: rest
      | [] => [[b]]

/-- Is `b` a UTF-8 continuation byte (`0x80 ≤ b < 0xC0`)? -/
def utf8Cont (b : Nat) : Bool := 0x80 ≤ b && b < 0xC0

/-- The Unicode replacement character U+FFFD. -/
def replChar : Char := Char.ofNat 0xFFFD

/-- Model of Python `bytes.decode('utf-8', errors='replace')`: a UTF-8 decoder
that substitutes U+FFFD for each maximal invalid subsequence (CPython's
behaviour): an invalid lead byte yields one replacement character, a
truncated or broken multi-byte sequence yields one replacement character for
the bytes consumed so far and decoding resynchronises at the offending
byte. -/
def utf8Decode : List Nat → List Char
  | [] => []
  | b :: t =>
    if b < 0x80 then Char.ofNat b :: utf8Decode t
    else if 0xC2 ≤ b && b ≤ 0xDF then
      match t with
      | [] => [replChar]
      | c1 :: t1 =>
        if utf8Cont c1 then
          Char.ofNat ((b - 0xC0) * 0x40 + (c1 - 0x80)) :: utf8Decode t1
        else replChar :: utf8Decode (c1 :: t1)
    else if 0xE0 ≤ b && b ≤ 0xEF then
      match t with
      | [] => [replChar]
      | c1 :: t1 =>
        if (if b = 0xE0 then decide (0xA0 ≤ c1) && decide (c1 < 0xC0)
            else if b = 0xED then decide (0x80 ≤ c1) && decide (c1 < 0xA0)
            else utf8Cont c1) then
          match t1 with
          | [] => [replChar]
          | c2 :: t2 =>
            if utf8Cont c2 then
              Char.ofNat ((b - 0xE0) * 0x1000 + (c1 - 0x80) * 0x40 + (c2 - 0x80))
                :: utf8Decode t2
            else replChar :: utf8Decode (c2 :: t2)
        else replChar :: utf8Decode (c1 :: t1)
    else if 0xF0 ≤ b && b ≤ 0xF4 then
      match t with
      | [] => [replChar]
      | c1 :: t1 =>
        if (if b = 0xF0 then decide (0x90 ≤ c1) && decide (c1 < 0xC0)
            else if b = 0xF4 then decide (0x80 ≤ c1) && decide (c1 < 0x90)
            else utf8Cont c1) then
          match t1 with
          | [] => [replChar]
          | c2 :: t2 =>
            if utf8Cont c2 then
              match t2 with
              | [] => [replChar]
              | c3 :: t3 =>
                if utf8Cont c3 then
                  Char.ofNat ((b - 0xF0) * 0x40000 + (c1 - 0x80) * 0x1000
                      + (c2 - 0x80) * 0x40 + (c3 - 0x80)) :: utf8Decode t3
                else replChar :: utf8Decode (c3 :: t3)
            else replChar :: utf8Decode (c2 :: t2)
        else replChar :: utf8Decode (c1 :: t1)
    else replChar :: utf8Decode t

/-- The characters Python `str.strip()` removes: the Unicode whitespace set
used by CPython (`Py_UNICODE_ISSPACE`). -/
def isPySpace (c : Char) : Bool :=
  ([9, 10, 11, 12, 13, 28, 29, 30, 31, 32, 133, 160, 5760,
    8192, 8193, 8194, 8195, 8196, 8197, 8198, 8199, 8200, 8201, 8202,
    8232, 8233, 8239, 8287, 12288] : List Nat).contains c.toNat

/-- Model of Python `str.strip()` on a character list: drop whitespace from
both ends. -/
def pyStrip (s : List Char) : List Char :=
  ((s.dropWhile isPySpace).reverse.dropWhile isPySpace).reverse

/-- Model of `if output.startswith('OK'): output = output[2:]` in
`ESPI2C.exec_raw` (read_i2c.py line 72): drop a literal leading `OK`. -/
def okDrop (s : List Char) : List Char :=
  match s with
  | 'O' :: 'K' :: t => t
  | _ => s

/-- Result of `ESPI2C.exec_raw`'s parse phase: either the returned output
string, or the `RuntimeError` the method raises (read_i2c.py line 78). -/
inductive ExecResult where
  | ok (out : String)
  | error (msg : String)
  deriving DecidableEq

/-- Is the result the raised error? -/
def ExecResult.isErr : ExecResult → Bool
  | .ok _ => false
  | .error _ => true

/-- Parse phase of `ESPI2C.exec_raw` (read_i2c.py lines 69–80), as a function
of the accumulated response bytes `ret`:
`parts = ret.split(b'\x04')`; if at least two parts, decode and strip part 0,
drop a leading `OK`, decode and strip part 1, raise `RuntimeError` if the
stripped part 1 is non-empty, else return part 0's text; with fewer than two
parts, fall through to `return ""`. -/
def parseExec (ret : List Nat) : ExecResult :=
  match splitOnByte 4 ret with
  | p1 :: p2 :: _ =>
    let output := pyStrip (utf8Decode p1)
    let output2 := okDrop output
    let err := pyStrip (utf8Decode p2)
    if err ≠ [] then .error ("ESP32 Error: " ++ String.mk err)
    else .ok (String.mk output2)
  | _ => .ok ""

/-- Model of `ret.endswith(b'\x04>')` (read_i2c.py line 61): the last two
bytes are `0x04` then `>` (62). -/
def endsWithMarker (l : List Nat) : Bool :=
  match l.reverse with
  | b1 :: b2 :: _ => b1 == 62 && b2 == 4
  | _ => false

/-- The read loop of `ESPI2C.exec_raw` (read_i2c.py lines 56–63).  The Python
loop is `while True`: each iteration appends whatever bytes are waiting and
exits only when the accumulated buffer ends with the completion marker
`0x04 '>'`.  `chunks i` gives the bytes available at poll iteration `i`
(empty when `in_waiting == 0`).  `fuel` is the number of iterations we
observe — it is NOT part of the code, which has no deadline: `none` means
the loop is still running after `fuel` iterations. -/
def readLoop (chunks : Nat → List Nat) : Nat → Nat → List Nat → Option (List Nat)
  | 0, _, _ => none
  | fuel + 1, i, acc =>
    let c := chunks i
    if c = [] then readLoop chunks fuel (i + 1) acc
    else
      let acc2 := acc ++ c
      if endsWithMarker acc2 then some acc2
      else readLoop chunks fuel (i + 1) acc2

/-- Skip Python whitespace. -/
def skipWs (l : List Char) : List Char := l.dropWhile isPySpace

/-- Numeric value of a digit run. -/
def digitsVal (ds : List Char) : Nat :=
  ds.foldl (fun a c => a * 10 + (c.toNat - 48)) 0

/-- Tail of the int-list-literal grammar: after the first item, repeatedly a
comma and a digit run, ending with `]` and trailing whitespace.  The fuel is
an upper bound on the characters left; each step consumes at least the
comma. -/
def parseMoreInts : Nat → List Nat → List Char → Option (List Nat)
  | 0, _, _ => none
  | fuel + 1, acc, l =>
    match skipWs l with
    | ']' :: r => if skipWs r = [] then some acc.reverse else none
    | ',' :: r =>
      let r2 := skipWs r
      let ds := r2.takeWhile Char.isDigit
      if ds = [] then none
      else parseMoreInts fuel (digitsVal ds :: acc) (r2.dropWhile Char.isDigit)
    | _ => none

/-- Parser for the exact texts `i2c.scan()` prints: a Python list literal of
decimal integers, as consumed by `eval(result)` in `ESPI2C.scan`
(read_i2c.py line 91).  On that grammar it agrees with `eval`; `none` on any
other text carries NO commitment about what `eval` does there (`eval` raises
on some such texts and succeeds with a non-list value on others), so this
function is used only at int-list-literal inputs, where it coincides with
`eval`.  The behaviour of `scan` under an arbitrary `eval` outcome is
modelled by `scanWithEval` below. -/
def evalIntList (s : String) : Option (List Nat) :=
  match skipWs s.data with
  | '[' :: r =>
    let r2 := skipWs r
    match r2 with
    | ']' :: r3 => if skipWs r3 = [] then some [] else none
    | _ =>
      let ds := r2.takeWhile Char.isDigit
      if ds = [] then none
      else parseMoreInts (s.data.length + 1) [digitsVal ds] (r2.dropWhile Char.isDigit)
  | _ => none

/-- `ESPI2C.scan` (read_i2c.py lines 82–95) as a function of the accumulated
response bytes: run the parse phase of `exec_raw`; a raised error is caught by
the `except` branch which prints a message and returns `[]`; a truthy
(non-empty) result text is passed to `eval`, whose own exception is caught by
the same branch; a falsy (empty) result returns `[]`.  This instance
hard-wires `evalIntList` for `eval` and is therefore faithful exactly on
responses whose text is an int-list literal, as in the concrete round-trip
of C6; the oracle-parameterised `scanWithEval` models the other `eval`
outcomes. -/
def scanResult (ret : List Nat) : List Nat :=
  match parseExec ret with
  | .error _ => []
  | .ok res =>
    if res ≠ "" then
      match evalIntList res with
      | some l => l
      | none => []
    else []

/-- A Python value that `eval(result)` may hand back to `scan`: the list of
addresses on the expected texts, or any non-list value — `eval("3")` is `3`,
`eval("'abc'")` is `'abc'` — which `return eval(result)` passes through
unchanged. -/
inductive PyVal where
  | pylist (l : List Nat)
  | other (txt : String)
  deriving DecidableEq

/-- `ESPI2C.scan` (read_i2c.py lines 82–95) over an explicit evaluation
oracle `ev` for `eval`: `ev txt = some v` means `eval` returns the value `v`
on `txt`, and `ev txt = none` means `eval` raises there.  Nothing is assumed
about which texts raise.  A raised error — from `exec_raw` or from `eval` —
is caught by the `except` branch, which prints a message and returns `[]`; a
falsy (empty) result text returns `[]`; otherwise `eval`'s value is returned
unchanged, list or not. -/
def scanWithEval (ev : String → Option PyVal) (ret : List Nat) : PyVal :=
  match parseExec ret with
  | .error _ => .pylist []
  | .ok res =>
    if res ≠ "" then
      match ev res with
      | some v => v
      | none => .pylist []
    else .pylist []

/-- An evaluation oracle agreeing with Python `eval` at the only texts it is
consulted on in this file, `garbage` and `nope`: both are undefined names, on
which `eval` raises `NameError`, hence `none`; its value elsewhere is never
used. -/
def garbageRaises : String → Option PyVal := fun _ => none

/-- One serial side effect of a driver method: a `ser.write(bs)`, a
`time.sleep` (milliseconds), or a `ser.read_all()` whose bytes are discarded
or only scanned for error keywords. -/
inductive Ev where
  | write (bs : List Nat)
  | sleepMs (ms : Nat)
  | drain
  deriving DecidableEq

/-- Model of `str.encode('utf-8')` for the ASCII strings the driver sends:
each character's code point is one byte. -/
def strBytes (s : String) : List Nat := s.data.map Char.toNat

/-- Send phase of `ESPI2C.exec_raw` (read_i2c.py lines 47–53): write the
raw-mode byte `0x01`, sleep 50 ms, drain the `OK` acknowledgement, then write
the encoded code with the execution-trigger byte `0x04` appended — a single
write, with no newline terminator and no settle delay before the trigger. -/
def execRawTrace (code : List Nat) : List Ev :=
  [.write [1], .sleepMs 50, .drain, .write (code ++ [4])]

/-- Mode-entry sequence of `ESPI2C.connect_and_init` (read_i2c.py lines
22–29): interrupt byte `0x03`, settle, raw-mode byte `0x01`, settle, drain. -/
def connectTrace : List Ev :=
  [.write [3], .sleepMs 100, .write [1], .sleepMs 100, .drain]

/-- The command text `f"set_pin({pin}, {val})\n"` built by
`ESP32Controller.toggle_pin` (espgui.py line 73). -/
def setPinCmd (pin : Nat) (val : Nat) : String :=
  "set_pin(" ++ toString pin ++ ", " ++ toString val ++ ")\n"

/-- Serial trace of `ESP32Controller.toggle_pin` (espgui.py lines 63–82):
raw-mode byte, settle, drain, write the newline-terminated command, sleep
20 ms, write the execution-trigger byte `0x04` as a separate write, sleep,
then read the response (scanned only for error keywords). -/
def togglePinTrace (pin : Nat) (state : Bool) : List Ev :=
  let val := if state then 1 else 0
  [.write [1], .sleepMs 30, .drain,
   .write (strBytes (setPinCmd pin val)), .sleepMs 20,
   .write [4], .sleepMs 80, .drain]

/-- Host-side observable state of a session: the bytes buffered on the serial
input, deliverable by the next read.  The driver object itself holds no other
state (there is no `mode` flag in the code). -/
structure SessState where
  inBuffer : List Nat
  deriving DecidableEq

/-- A serial write: the remote's reply to the written bytes is appended to
the host input buffer (the settle sleep that lets it arrive is abstracted). -/
def writeSer (remote : List Nat → List Nat) (bs : List Nat) (s : SessState) : SessState :=
  { inBuffer := s.inBuffer ++ remote bs }

/-- `ser.read_all()`: return everything buffered and leave the buffer empty. -/
def readAllSer (s : SessState) : SessState × List Nat :=
  (⟨[]⟩, s.inBuffer)

/-- State effect of the mode-entry sequence (read_i2c.py lines 22–29, espgui.py
lines 34–42): write the interrupt byte, write the raw-mode byte, then drain
everything buffered. -/
def enterRawMode (remote : List Nat → List Nat) (s : SessState) : SessState :=
  (readAllSer (writeSer remote [1] (writeSer remote [3] s))).1

/-- State effect of the prologue `exec_raw` replays before sending any code
(read_i2c.py lines 47–50): write the raw-mode byte, drain. -/
def execPrologue (remote : List Nat → List Nat) (s : SessState) : SessState :=
  (readAllSer (writeSer remote [1] s)).1

/-- One event of the remote helper `set_pin` injected by `ESP_INIT_CODE`
(espgui.py lines 14–27): constructing `machine.Pin(pin, Pin.OUT)` (configure
as output) or calling `.value(v)`. -/
inductive PinEv where
  | config (pin : Nat)
  | setVal (pin : Nat) (v : Nat)
  deriving DecidableEq

/-- The injected remote helper `set_pin(pin_num, state)`: if the pin is not in
the `gpios` cache, construct the Pin as output and cache it; then write the
value `1 if state else 0`.  State is the set of cached pins (dict keys);
result is the new state and the events performed. -/
def set_pin (gpios : List Nat) (pin : Nat) (state : Bool) : List Nat × List PinEv :=
  if pin ∈ gpios then (gpios, [.setVal pin (if state then 1 else 0)])
  else (gpios ++ [pin], [.config pin, .setVal pin (if state then 1 else 0)])

/-- Run a sequence of `set_pin` calls from a given cache state, collecting the
events in order. -/
def runSetPins (gpios : List Nat) : List (Nat × Bool) → List PinEv
  | [] => []
  | (p, st) :: rest =>
    let r := set_pin gpios p st
    r.2 ++ runSetPins r.1 rest

/-- Does the event concern pin `p`? -/
def touchesPin (p : Nat) : PinEv → Bool
  | .config q => q == p
  | .setVal q _ => q == p

/-- The ASCII bytes that decode to a character Python `str.strip()` removes. -/
def isAsciiSpaceByte (b : Nat) : Bool :=
  ([9, 10, 11, 12, 13, 28, 29, 30, 31, 32] : List Nat).contains b

/-- The simulated reply `OK[8, 52]\x04\x04>` of claim C6. -/
def c6Reply : List Nat := strBytes "OK[8, 52]" ++ [4, 4, 62]

theorem splitOnByte_of_not_mem {sep : Nat} {xs : List Nat} (h : sep ∉ xs) :
    splitOnByte sep xs = [xs] := by
  induction xs with
  | nil => rfl
  | cons b t ih =>
    have hb : b ≠ sep := fun hbs => h (hbs ▸ List.mem_cons_self b t)
    have ht : sep ∉ t := fun hts => h (List.mem_cons_of_mem b hts)
    simp only [splitOnByte, if_neg hb, ih ht]

theorem splitOnByte_append_cons {sep : Nat} {xs : List Nat} (ys : List Nat)
    (h : sep ∉ xs) :
    splitOnByte sep (xs ++ sep :: ys) = xs :: splitOnByte sep ys := by
  induction xs with
  | nil => simp [splitOnByte]
  | cons b t ih =>
    have hb : b ≠ sep := fun hbs => h (hbs ▸ List.mem_cons_self b t)
    have ht : sep ∉ t := fun hts => h (List.mem_cons_of_mem b hts)
    simp only [List.cons_append, splitOnByte, if_neg hb]
    rw [List.append_eq, ih ht]

theorem utf8Decode_ascii {l : List Nat} (h : ∀ b ∈ l, b < 128) :
    utf8Decode l = l.map Char.ofNat := by
  induction l with
  | nil => rfl
  | cons b t ih =>
    have hb : b < 128 := h b (List.mem_cons_self b t)
    have ht : ∀ x ∈ t, x < 128 := fun x hx => h x (List.mem_cons_of_mem b hx)
    rw [utf8Decode.eq_def]
    simp only [List.map_cons, if_pos hb, ih ht]

theorem utf8Decode_map_toNat {s : List Char} (h : ∀ c ∈ s, c.toNat < 128) :
    utf8Decode (s.map Char.toNat) = s := by
  rw [utf8Decode_ascii]
  · rw [List.map_map]
    exact List.map_id'' Char.ofNat_toNat s
  · intro b hb
    obtain ⟨c, hc, rfl⟩ := List.mem_map.1 hb
    exact h c hc

theorem pyStrip_of_all_space {s : List Char} (h : ∀ c ∈ s, isPySpace c = true) :
    pyStrip s = [] := by
  unfold pyStrip
  rw [List.dropWhile_eq_nil_iff.2 h]
  rfl

theorem endsWithMarker_mem {l : List Nat} (h : endsWithMarker l = true) :
    (4 : Nat) ∈ l := by
  rw [← List.mem_reverse]
  unfold endsWithMarker at h
  rcases hr : l.reverse with _ | ⟨a, _ | ⟨b, t⟩⟩ <;> rw [hr] at h <;> simp at h
  rw [h.2]
  exact List.mem_cons_of_mem a (List.mem_cons_self 4 t)

theorem asciiSpaceByte_lt {b : Nat} (h : isAsciiSpaceByte b = true) : b < 128 := by
  unfold isAsciiSpaceByte at h
  rw [List.contains_eq_any_beq] at h
  simp only [List.any_eq_true, beq_iff_eq] at h
  obtain ⟨x, hx, rfl⟩ := h
  fin_cases hx <;> decide

theorem asciiSpaceByte_isPySpace {b : Nat} (h : isAsciiSpaceByte b = true) :
    isPySpace (Char.ofNat b) = true := by
  unfold isAsciiSpaceByte at h
  rw [List.contains_eq_any_beq] at h
  simp only [List.any_eq_true, beq_iff_eq] at h
  obtain ⟨x, hx, rfl⟩ := h
  fin_cases hx <;> decide

/-- C1 (corrected). The read loop of `exec_raw` is NOT bounded by a wall-clock
deadline: its only exit is the completion marker.  If the transport never
delivers a `0x04` byte, then after any number of poll iterations the loop has
still not returned — there is no `Timeout` failure and the partial bytes are
never surfaced. -/
theorem C1_read_loop_unbounded (chunks : Nat → List Nat) (acc : List Nat)
    (fuel i : Nat) (hc : ∀ j, (4 : Nat) ∉ chunks j) (ha : (4 : Nat) ∉ acc) :
    readLoop chunks fuel i acc = none := by
  induction fuel generalizing i acc with
  | zero => rfl
  | succ n ih =>
    rw [readLoop]
    by_cases hc0 : chunks i = []
    · rw [if_pos hc0]
      exact ih acc (i + 1) ha
    · rw [if_neg hc0]
      have h4 : (4 : Nat) ∉ acc ++ chunks i := by
        intro hmem
        rcases List.mem_append.1 hmem with hm | hm
        · exact ha hm
        · exact hc i hm
      have hm : endsWithMarker (acc ++ chunks i) = false := by
        cases hE : endsWithMarker (acc ++ chunks i)
        · rfl
        · exact absurd (endsWithMarker_mem hE) h4
      show (if endsWithMarker (acc ++ chunks i) = true then some (acc ++ chunks i)
            else readLoop chunks n (i + 1) (acc ++ chunks i)) = none
      rw [hm, if_neg Bool.false_ne_true]
      exact ih (acc ++ chunks i) (i + 1) h4

/-- Witness for C1's theorem: a transport that repeats the byte `A` forever
satisfies the hypotheses, and after 5 observed iterations the loop has not
returned. -/
theorem C1_read_loop_unbounded_witness :
    (∀ j : Nat, (4 : Nat) ∉ (fun _ : Nat => ([65] : List Nat)) j) ∧
      readLoop (fun _ => [65]) 5 0 [] = none :=
  ⟨fun _ => (by decide : (4 : Nat) ∉ ([65] : List Nat)),
   C1_read_loop_unbounded (fun _ => [65]) [] 5 0
     (fun _ => (by decide : (4 : Nat) ∉ ([65] : List Nat))) (by decide)⟩

set_option maxRecDepth 8000 in
/-- Counterexample to C1 as stated: with the serial port's 1 s read timeout as
the budget and the 10 ms poll interval, `budget + poll_interval` is exceeded
after 101 poll iterations; yet on a transport that forever repeats the byte
`A` (never the completion marker), the loop is still running after 200
iterations (≥ 2 s of wall clock), having produced no `Timeout` failure — the
loop has no deadline at all. -/
theorem C1_claim_counterexample :
    readLoop (fun _ => [65]) 200 0 [] = none := by decide

/-- C2 (corrected). When splitting the accumulated response on `0x04` yields
fewer than 2 segments, `exec_raw` does NOT return a `MalformedResponse`
failure (no such variant exists in the code): it falls through to
`return ""`, the silent empty result. -/
theorem C2_short_split_silent_empty (ret : List Nat)
    (h : (splitOnByte 4 ret).length < 2) : parseExec ret = .ok "" := by
  unfold parseExec
  rcases hs : splitOnByte 4 ret with _ | ⟨a, _ | ⟨b, t⟩⟩
  · rfl
  · rfl
  · rw [hs] at h
    simp at h
    omega

/-- Witness for C2's theorem at the two-byte marker-free reply `ab`. -/
theorem C2_short_split_silent_empty_witness :
    (splitOnByte 4 [97, 98]).length < 2 ∧ parseExec [97, 98] = .ok "" :=
  ⟨by decide, C2_short_split_silent_empty [97, 98] (by decide)⟩

/-- Counterexample to C2 as stated: the reply `abc` contains zero `0x04`
bytes, so the split yields a single segment, and the parse returns the
success value `.ok ""` — a silent empty result, not a failure carrying the
raw bytes. -/
theorem C2_claim_counterexample :
    (splitOnByte 4 [97, 98, 99]).length < 2 ∧
      parseExec [97, 98, 99] = .ok "" := by decide

/-- C6 (confirmed). Round-trip: on a transport whose single chunk is
`OK[8, 52]\x04\x04>`, the read loop completes with exactly those bytes and
`scan` parses the printed list literal back to the address list `[8, 52]`. -/
theorem C6_scan_round_trip :
    readLoop (fun i => if i = 0 then c6Reply else []) 1 0 [] = some c6Reply ∧
      scanResult c6Reply = [8, 52] := by decide

/-- C7 (corrected). `scan` never returns a `ProtocolError` (no such type
exists; its result is always an ordinary value): over every evaluation
oracle, whenever `exec_raw` raises, or the response text is empty, or `eval`
raises on the text, the `except` branch yields the empty list —
indistinguishable from a report of zero devices; and when `eval` succeeds
its value is returned unchanged even when it is not a list, shown concretely
for the reply `OK3\x04\x04>` whose text `3` evaluates to the integer `3`. -/
theorem C7_scan_swallows_failures (ev : String → Option PyVal) (ret : List Nat) :
    (∀ e, parseExec ret = .error e → scanWithEval ev ret = .pylist []) ∧
      (parseExec ret = .ok "" → scanWithEval ev ret = .pylist []) ∧
      (∀ out, parseExec ret = .ok out → ev out = none →
        scanWithEval ev ret = .pylist []) ∧
      scanWithEval (fun _ => some (.other "3")) (strBytes "OK3" ++ [4, 4, 62]) =
        .other "3" := by
  refine ⟨?_, ?_, ?_, by decide⟩
  · intro e he
    simp [scanWithEval, he]
  · intro he
    simp [scanWithEval, he]
  · intro out ho hev
    by_cases h : out = ""
    · subst h
      simp [scanWithEval, ho]
    · simp [scanWithEval, ho, h, hev]

/-- Witness for C7's theorem: the reply `OKnope\x04\x04>` parses to the text
`nope`, an undefined name on which `eval` raises `NameError` (the oracle
reflects this); `scan` returns the empty list. -/
theorem C7_scan_swallows_failures_witness :
    parseExec (strBytes "OKnope" ++ [4, 4, 62]) = .ok "nope" ∧
      garbageRaises "nope" = none ∧
      scanWithEval garbageRaises (strBytes "OKnope" ++ [4, 4, 62]) = .pylist [] :=
  ⟨by decide, by decide,
   (C7_scan_swallows_failures garbageRaises
       (strBytes "OKnope" ++ [4, 4, 62])).2.2.1 "nope" (by decide) (by decide)⟩

/-- Counterexample to C7 as stated: the reply `OKgarbage\x04\x04>` carries a
text that cannot be parsed as a sequence of integers — Python `eval` raises
`NameError` on the undefined name `garbage`, which the oracle reflects at the
only text consulted — yet `scan` returns the success value `[]`, the same
value as a report of zero devices, instead of a `ProtocolError` failure. -/
theorem C7_claim_counterexample :
    parseExec (strBytes "OKgarbage" ++ [4, 4, 62]) = .ok "garbage" ∧
      scanWithEval garbageRaises (strBytes "OKgarbage" ++ [4, 4, 62]) =
        .pylist [] := by decide

theorem parseExec_parts (p1 p2 : List Nat) (rest : List (List Nat)) (ret : List Nat)
    (h : splitOnByte 4 ret = p1 :: p2 :: rest) :
    parseExec ret =
      (if pyStrip (utf8Decode p2) ≠ [] then
        ExecResult.error ("ESP32 Error: " ++ String.mk (pyStrip (utf8Decode p2)))
      else .ok (String.mk (okDrop (pyStrip (utf8Decode p1))))) := by
  unfold parseExec
  rw [h]

/-- C3 (corrected). The code checks the stderr segment only after
whitespace-stripping it: `exec_raw` raises if and only if the STRIPPED second
`0x04`-delimited segment is non-empty, and otherwise succeeds with the
stdout text (the stripped, `OK`-dropped first segment). -/
theorem C3_error_iff_stripped_stderr_nonempty (ret p1 p2 : List Nat)
    (h1 : (splitOnByte 4 ret)[0]? = some p1)
    (h2 : (splitOnByte 4 ret)[1]? = some p2) :
    ((parseExec ret).isErr = true ↔ pyStrip (utf8Decode p2) ≠ []) ∧
      (pyStrip (utf8Decode p2) = [] →
        parseExec ret = .ok (String.mk (okDrop (pyStrip (utf8Decode p1))))) := by
  rcases hs : splitOnByte 4 ret with _ | ⟨a, _ | ⟨b, t⟩⟩
  · rw [hs] at h1
    simp at h1
  · rw [hs] at h2
    simp at h2
  · rw [hs] at h1 h2
    simp only [List.getElem?_cons_zero, List.getElem?_cons_succ,
      Option.some.injEq] at h1 h2
    rw [h1, h2] at hs
    rw [parseExec_parts p1 p2 t ret hs]
    by_cases he : pyStrip (utf8Decode p2) = []
    · rw [if_neg (fun hn => hn he)]
      exact ⟨by simp [ExecResult.isErr, he], fun _ => rfl⟩
    · rw [if_pos he]
      exact ⟨by simp [ExecResult.isErr, he], fun h => absurd h he⟩

/-- Witness for C3's theorem at the reply `OK5\x04\x04>`: the stderr segment
is empty, so the call succeeds with stdout `5`. -/
theorem C3_error_iff_stripped_stderr_nonempty_witness :
    (splitOnByte 4 [79, 75, 53, 4, 4, 62])[0]? = some [79, 75, 53] ∧
      (splitOnByte 4 [79, 75, 53, 4, 4, 62])[1]? = some [] ∧
      ((parseExec [79, 75, 53, 4, 4, 62]).isErr = true ↔
        pyStrip (utf8Decode []) ≠ []) :=
  ⟨by decide, by decide,
   (C3_error_iff_stripped_stderr_nonempty [79, 75, 53, 4, 4, 62] [79, 75, 53] []
     (by decide) (by decide)).1⟩

/-- Counterexample to C3 as stated: in the reply `OKhi\x04 \x04>` the stderr
segment is the single space — non-empty — yet no error is surfaced: the call
succeeds with stdout `hi`, because the code strips the segment before the
emptiness check. -/
theorem C3_claim_counterexample :
    (splitOnByte 4 (strBytes "OKhi" ++ [4, 32, 4, 62]))[1]? = some [32] ∧
      [32] ≠ ([] : List Nat) ∧
      parseExec (strBytes "OKhi" ++ [4, 32, 4, 62]) = .ok "hi" := by decide

/-- C5 (corrected). For an error-free response `OK<printed>\x04\x04>` the
call succeeds, but the stdout it returns is NOT byte-for-byte what the remote
printed: the first segment is whitespace-STRIPPED on both ends (then the
leading `OK` token dropped).  The theorem gives the exact value returned. -/
theorem C5_stdout_whitespace_stripped (out : String)
    (hascii : ∀ c ∈ out.data, c.toNat < 128)
    (h4 : ∀ c ∈ out.data, c.toNat ≠ 4) :
    parseExec (strBytes ("OK" ++ out) ++ [4, 4, 62]) =
      .ok (String.mk (okDrop (pyStrip ('O' :: 'K' :: out.data)))) := by
  have hdata : ("OK" ++ out).data = 'O' :: 'K' :: out.data := by
    rw [String.data_append]
    rfl
  have hmem : (4 : Nat) ∉ strBytes ("OK" ++ out) := by
    unfold strBytes
    rw [hdata]
    intro hm
    rcases List.mem_map.1 hm with ⟨c, hc, hct⟩
    rcases List.mem_cons.1 hc with rfl | hc
    · exact absurd hct (by decide)
    rcases List.mem_cons.1 hc with rfl | hc
    · exact absurd hct (by decide)
    exact h4 c hc hct
  have hsplit : splitOnByte 4 (strBytes ("OK" ++ out) ++ [4, 4, 62]) =
      strBytes ("OK" ++ out) :: [] :: [[62]] := by
    have he : strBytes ("OK" ++ out) ++ [4, 4, 62] =
        strBytes ("OK" ++ out) ++ 4 :: ([] ++ 4 :: [62]) := rfl
    rw [he, splitOnByte_append_cons _ hmem,
      splitOnByte_append_cons _ (by simp),
      splitOnByte_of_not_mem (by decide)]
  rw [parseExec_parts _ _ _ _ hsplit]
  have hdec : utf8Decode (strBytes ("OK" ++ out)) = 'O' :: 'K' :: out.data := by
    unfold strBytes
    rw [hdata]
    refine utf8Decode_map_toNat ?_
    intro c hc
    rcases List.mem_cons.1 hc with rfl | hc
    · decide
    rcases List.mem_cons.1 hc with rfl | hc
    · decide
    exact hascii c hc
  rw [if_neg (fun hn => hn rfl), hdec]

/-- Witness for C5's theorem at the printed text `hi`. -/
theorem C5_stdout_whitespace_stripped_witness :
    (∀ c ∈ ("hi" : String).data, c.toNat < 128) ∧
      parseExec (strBytes ("OK" ++ "hi") ++ [4, 4, 62]) =
        .ok (String.mk (okDrop (pyStrip ('O' :: 'K' :: ("hi" : String).data)))) :=
  ⟨by decide, C5_stdout_whitespace_stripped "hi" (by decide) (by decide)⟩

/-- Counterexample to C5 as stated: the remote prints `hi\n` (every `print`
appends a newline), so the response is `OKhi\n\x04\x04>`; the claim requires
stdout to be exactly `hi\n`, but the code returns the stripped text `hi`. -/
theorem C5_claim_counterexample :
    parseExec (strBytes "OKhi\n" ++ [4, 4, 62]) = .ok "hi" ∧
      ("hi" : String) ≠ "hi\n" := by decide

/-- C10 (confirmed). Both response segments are whitespace-stripped before
any check: a stderr segment made only of whitespace bytes is treated exactly
like an empty one — the response parses to the very same (successful) result —
and leading whitespace on the first segment is removed before the `OK` token
check (`  OK5` still yields stdout `5`). -/
theorem C10_whitespace_stderr_ignored (p1 ws : List Nat)
    (hp : (4 : Nat) ∉ p1) (hw : (4 : Nat) ∉ ws)
    (hws : ∀ b ∈ ws, isAsciiSpaceByte b = true) :
    parseExec (p1 ++ 4 :: (ws ++ [4, 62])) = parseExec (p1 ++ [4, 4, 62]) ∧
      (parseExec (p1 ++ 4 :: (ws ++ [4, 62]))).isErr = false ∧
      parseExec (strBytes " OK5" ++ [4, 4, 62]) = .ok "5" := by
  have hstrip : pyStrip (utf8Decode ws) = [] := by
    rw [utf8Decode_ascii (fun b hb => asciiSpaceByte_lt (hws b hb))]
    refine pyStrip_of_all_space ?_
    intro c hc
    rcases List.mem_map.1 hc with ⟨b, hb, rfl⟩
    exact asciiSpaceByte_isPySpace (hws b hb)
  have hs1 : splitOnByte 4 (p1 ++ 4 :: (ws ++ [4, 62])) = p1 :: ws :: [[62]] := by
    rw [splitOnByte_append_cons _ hp, splitOnByte_append_cons _ hw,
      splitOnByte_of_not_mem (by decide)]
  have hs2 : splitOnByte 4 (p1 ++ [4, 4, 62]) = p1 :: [] :: [[62]] := by
    have he : p1 ++ [4, 4, 62] = p1 ++ 4 :: ([] ++ 4 :: [62]) := rfl
    rw [he, splitOnByte_append_cons _ hp, splitOnByte_append_cons _ (by simp),
      splitOnByte_of_not_mem (by decide)]
  refine ⟨?_, ?_, by decide⟩
  · rw [parseExec_parts _ _ _ _ hs1, parseExec_parts _ _ _ _ hs2, hstrip]
    rfl
  · rw [parseExec_parts _ _ _ _ hs1, hstrip]
    rw [if_neg (fun hn => hn rfl)]
    rfl

/-- Witness for C10's theorem: stderr segment `\r\n` (whitespace only) gives
the same successful result as an empty stderr segment. -/
theorem C10_whitespace_stderr_ignored_witness :
    (∀ b ∈ ([13, 10] : List Nat), isAsciiSpaceByte b = true) ∧
      parseExec ([79, 75, 53] ++ 4 :: ([13, 10] ++ [4, 62])) =
        parseExec ([79, 75, 53] ++ [4, 4, 62]) :=
  ⟨by decide,
   (C10_whitespace_stderr_ignored [79, 75, 53] [13, 10] (by decide) (by decide)
     (by decide)).1⟩

/-- C4 (corrected). The framings of the two drivers differ.  `exec_raw`
(read_i2c.py line 53) sends the code and the execution-trigger byte `0x04`
together in ONE write, with no newline terminator and no settle delay in
between.  `toggle_pin` in espgui.py, by contrast, does write the command
terminated by a newline, sleep 20 ms, and only then write `0x04` as a
separate write. -/
theorem C4_submission_framing (code : List Nat) (pin : Nat) (st : Bool) :
    execRawTrace code = [.write [1], .sleepMs 50, .drain, .write (code ++ [4])] ∧
      togglePinTrace pin st =
        [.write [1], .sleepMs 30, .drain,
         .write (strBytes (setPinCmd pin (if st then 1 else 0))), .sleepMs 20,
         .write [4], .sleepMs 80, .drain] ∧
      (strBytes (setPinCmd pin (if st then 1 else 0))).getLast? = some 10 := by
  refine ⟨rfl, rfl, ?_⟩
  unfold setPinCmd strBytes
  rw [String.data_append, List.map_append,
    List.getLast?_append_of_ne_nil _ (by decide)]
  decide

/-- Counterexample to C4 as stated: for the code string `x`, `exec_raw`
performs no write whose payload is the lone trigger byte `0x04` (it is fused
into the code write), and no write of it contains a newline at all — the
claimed "code, newline, settle delay, separate 0x04 write" sequence does not
happen. -/
theorem C4_claim_counterexample :
    Ev.write [4] ∉ execRawTrace [120] ∧
      ((execRawTrace [120]).all fun e =>
        match e with
        | .write bs => !(bs.contains 10)
        | _ => true) = true := by decide

/-- C8 (corrected). The entry prologue is idempotent and replayed, but only
partially: `enter_raw_mode`'s observable effect (input buffer drained) is the
same after one call or two, the prologue `exec_raw` replays leaves the
session in a state independent of any prior state (nothing cached is
trusted — the code has no `mode` flag at all), and every `exec_raw` begins
with the raw-mode byte, settle, drain.  The interrupt byte `0x03` of the full
connection-time mode-entry sequence, however, is NOT resent (see the
counterexample). -/
theorem C8_mode_entry_idempotent_replayed (remote : List Nat → List Nat)
    (s s2 : SessState) (code : List Nat) :
    enterRawMode remote (enterRawMode remote s) = enterRawMode remote s ∧
      execPrologue remote s = execPrologue remote s2 ∧
      (execRawTrace code).take 3 = [.write [1], .sleepMs 50, .drain] :=
  ⟨rfl, rfl, rfl⟩

/-- Counterexample to C8 as stated: the full mode-entry sequence of
`connect_and_init` starts with the interrupt byte `0x03`, but `exec_raw` (for
example on the code `x`) never writes `0x03` — only the raw-mode byte `0x01`
is replayed, so the FULL sequence is not replayed before every execute. -/
theorem C8_claim_counterexample :
    Ev.write [3] ∈ connectTrace ∧ Ev.write [3] ∉ execRawTrace [120] := by decide

theorem runSetPins_filter_of_mem (p : Nat) :
    ∀ (calls : List (Nat × Bool)) (g : List Nat), p ∈ g →
      (runSetPins g calls).filter (touchesPin p) =
        (calls.filter (fun c => c.1 == p)).map
          (fun c => PinEv.setVal p (if c.2 then 1 else 0)) := by
  intro calls
  induction calls with
  | nil => intro g _; rfl
  | cons c rest ih =>
    intro g hg
    obtain ⟨q, st⟩ := c
    by_cases hq : q ∈ g
    · rw [runSetPins, set_pin, if_pos hq]
      rw [List.filter_append, ih g hg]
      by_cases hqp : q = p
      · subst hqp
        simp [touchesPin]
      · simp [touchesPin, hqp]
    · rw [runSetPins, set_pin, if_neg hq]
      have hqp : q ≠ p := fun h => hq (h ▸ hg)
      rw [List.filter_append, ih (g ++ [q]) (List.mem_append.2 (Or.inl hg))]
      simp [touchesPin, hqp]

theorem runSetPins_filter_of_not_mem (p : Nat) :
    ∀ (calls : List (Nat × Bool)) (g : List Nat), p ∉ g →
      (runSetPins g calls).filter (touchesPin p) =
        (if p ∈ calls.map Prod.fst then [PinEv.config p] else []) ++
          (calls.filter (fun c => c.1 == p)).map
            (fun c => PinEv.setVal p (if c.2 then 1 else 0)) := by
  intro calls
  induction calls with
  | nil => intro g _; rfl
  | cons c rest ih =>
    intro g hg
    obtain ⟨q, st⟩ := c
    by_cases hqp : q = p
    · subst hqp
      rw [runSetPins, set_pin, if_neg hg]
      rw [List.filter_append,
        runSetPins_filter_of_mem q rest (g ++ [q])
          (List.mem_append.2 (Or.inr (List.mem_cons_self q [])))]
      simp [touchesPin]
    · by_cases hq : q ∈ g
      · rw [runSetPins, set_pin, if_pos hq]
        rw [List.filter_append, ih g hg]
        simp [touchesPin, hqp, Ne.symm hqp]
      · rw [runSetPins, set_pin, if_neg hq]
        have hg2 : p ∉ g ++ [q] := by
          intro hm
          rcases List.mem_append.1 hm with hm | hm
          · exact hg hm
          · exact hqp (List.mem_singleton.1 hm).symm
        rw [List.filter_append, ih (g ++ [q]) hg2]
        simp [touchesPin, hqp, Ne.symm hqp]

/-- C9 (confirmed). Pin-cache invariant of the injected `set_pin` helper: for
any sequence of calls starting from the empty cache and any pin `p`, the
events touching `p` are: one single configuration (exactly when some call
touches `p`), placed before every value write of `p`, followed by one value
write per call to `p` in call order — so the `Pin` constructor runs at most
once, on the first call touching `p` and before its first write, and later
calls only write the value. -/
theorem C9_pin_configured_once_before_writes (calls : List (Nat × Bool)) (p : Nat) :
    (runSetPins [] calls).filter (touchesPin p) =
      (if p ∈ calls.map Prod.fst then [PinEv.config p] else []) ++
        (calls.filter (fun c => c.1 == p)).map
          (fun c => PinEv.setVal p (if c.2 then 1 else 0)) :=
  runSetPins_filter_of_not_mem p calls [] (List.not_mem_nil p)

end Softarm
